import Mathlib

/-!
Verification of the data-layout contract declared in
`src-tauri/ResourceLib/ResourceLib-linux-x64/Include/ResourceLibCommon.h`.

The header declares four C structs (`JsonString`, `ResourceMem`,
`ResourceTypesArray`, `StringView`), each a borrowed pointer-plus-length
view of memory owned by the producing resource library.  We embed

* the C type structure of every field (a small C type grammar plus the
  four struct declarations transcribed from the header), used to settle
  layout and const-qualification claims;
* the view semantics: each view is modelled by the byte buffer its
  pointer designates together with the declared length field;
* a byte-level little-endian encoding of a struct instance, used to
  settle the ABI round-trip claim (linux-x64: pointers and `size_t`
  are 8 bytes);
* an operational model, built from the specification, of the operations
  the consuming side may perform on a view, used to settle the
  immutability and ownership claims (no behavioural code ships with the
  header, only the contract).
-/

/-- The C type grammar needed for the four declarations in the header:
`char`, `void`, `size_t`, the `const` qualifier, and pointers. -/
inductive CType where
  | charT : CType
  | voidT : CType
  | sizeT : CType
  | constT : CType → CType
  | ptrT : CType → CType
deriving DecidableEq

/-- One declared struct field: its name and its C type. -/
structure CField where
  fieldName : String
  fieldType : CType
deriving DecidableEq

/-- One declared struct: its tag and its fields in declaration order. -/
structure CStruct where
  structName : String
  fields : List CField
deriving DecidableEq

/-- `struct JsonString { const char* JsonData; size_t StrSize; };`
transcribed from the header. -/
def jsonStringDecl : CStruct :=
  ⟨"JsonString",
    [⟨"JsonData", .ptrT (.constT .charT)⟩, ⟨"StrSize", .sizeT⟩]⟩

/-- `struct ResourceMem { const void* ResourceData; size_t DataSize; };`
transcribed from the header. -/
def resourceMemDecl : CStruct :=
  ⟨"ResourceMem",
    [⟨"ResourceData", .ptrT (.constT .voidT)⟩, ⟨"DataSize", .sizeT⟩]⟩

/-- `struct ResourceTypesArray { const char** Types; size_t TypeCount; };`
transcribed from the header. -/
def resourceTypesArrayDecl : CStruct :=
  ⟨"ResourceTypesArray",
    [⟨"Types", .ptrT (.ptrT (.constT .charT))⟩, ⟨"TypeCount", .sizeT⟩]⟩

/-- `struct StringView { const char* Data; size_t Size; };`
transcribed from the header. -/
def stringViewDecl : CStruct :=
  ⟨"StringView",
    [⟨"Data", .ptrT (.constT .charT)⟩, ⟨"Size", .sizeT⟩]⟩

/-- The four struct declarations of the header, in file order. -/
def headerStructs : List CStruct :=
  [jsonStringDecl, resourceMemDecl, resourceTypesArrayDecl, stringViewDecl]

/-- A raw (plain C) pointer type.  The grammar has no owning smart
pointer: every `ptrT` is a raw, non-owning reference. -/
def CType.isRawPointer : CType → Bool
  | .ptrT _ => true
  | _ => false

/-- The `size_t` type, C's unsigned size type. -/
def CType.isSizeT : CType → Bool
  | .sizeT => true
  | _ => false

/-- Whether a type carries a top-level `const` qualifier. -/
def CType.isConstQualified : CType → Bool
  | .constT _ => true
  | _ => false

/-- Whether a write through a value of this type is permitted by the C
type system: only writes through a pointer whose pointee is not
`const`-qualified are allowed. -/
def CType.writeThroughAllowed : CType → Bool
  | .ptrT t => !t.isConstQualified
  | _ => false

/-- Strip pointers down to the ultimately viewed data type. -/
def CType.deepPointee : CType → CType
  | .ptrT t => t.deepPointee
  | t => t

/-- The ultimately viewed data behind a chain of pointers is
`const`-qualified. -/
def CType.viewedDataConst (t : CType) : Bool :=
  t.deepPointee.isConstQualified

/-- Declaration shape demanded by the layout contract: exactly two
fields, a raw pointer first and a `size_t` length second. -/
def CStruct.ptrThenLen (s : CStruct) : Bool :=
  match s.fields with
  | [p, l] => p.fieldType.isRawPointer && l.fieldType.isSizeT
  | _ => false

/-- Address width of the linux-x64 target the header directory names. -/
def addrBits : Nat := 64

/-- Width of `size_t` on the linux-x64 target. -/
def sizeTBits : Nat := 64

/-- Largest byte count the platform can address. -/
def maxAddressableByteCount : Nat := 2 ^ addrBits - 1

/-- Largest value a `size_t` field can hold. -/
def sizeTMax : Nat := 2 ^ sizeTBits - 1

/-! ## View semantics

Each view is modelled by the byte buffer its pointer designates (the
bytes the producer makes dereferenceable) together with the declared
length field.  Bytes are natural numbers below 256. -/

/-- `struct JsonString`: the buffer behind `JsonData` and the declared
`StrSize`.  The header documents that the data is always null
terminated and that `StrSize` does not include the terminator. -/
structure JsonString where
  JsonData : List Nat
  StrSize : Nat

/-- The invariant the header documents for `JsonString`: the byte at
offset `StrSize` exists and is the null byte. -/
def JsonString.WF (js : JsonString) : Prop :=
  js.JsonData.get? js.StrSize = some 0

instance (js : JsonString) : Decidable js.WF := by
  unfold JsonString.WF; infer_instance

/-- Modelled from the spec: a conforming producer turns a JSON payload
into a `JsonString` by appending the null terminator and reporting the
payload length (the producing code is not part of the supplied source;
only its output contract is specified). -/
def mkJsonString (payload : List Nat) : JsonString :=
  ⟨payload ++ [0], payload.length⟩

/-- `struct ResourceMem`: the buffer behind `ResourceData` and the
declared `DataSize`. -/
structure ResourceMem where
  ResourceData : List Nat
  DataSize : Nat

/-- Exactly `DataSize` bytes starting at `ResourceData` are valid. -/
def ResourceMem.WF (m : ResourceMem) : Prop :=
  m.ResourceData.length = m.DataSize

instance (m : ResourceMem) : Decidable m.WF := by
  unfold ResourceMem.WF; infer_instance

/-- Reading byte `i` of a `ResourceMem` view: defined only inside the
buffer the producer made dereferenceable. -/
def ResourceMem.readByte (m : ResourceMem) (i : Nat) : Option Nat :=
  m.ResourceData.get? i

/-- `struct StringView`: the buffer behind `Data` and the declared
`Size`.  Not guaranteed to be null terminated. -/
structure StringView where
  Data : List Nat
  Size : Nat

/-- Exactly `Size` bytes starting at `Data` are valid. -/
def StringView.WF (s : StringView) : Prop :=
  s.Data.length = s.Size

instance (s : StringView) : Decidable s.WF := by
  unfold StringView.WF; infer_instance

/-- Reading byte `i` of a `StringView`. -/
def StringView.readByte (s : StringView) (i : Nat) : Option Nat :=
  s.Data.get? i

/-- `struct ResourceTypesArray`: the array behind `Types`, each entry
the byte buffer behind one `const char*`, and the declared
`TypeCount`. -/
structure ResourceTypesArray where
  Types : List (List Nat)
  TypeCount : Nat

/-- Each of the `TypeCount` slots exists and holds a null-terminated
string buffer (a buffer containing a terminator). -/
def ResourceTypesArray.WF (a : ResourceTypesArray) : Prop :=
  a.Types.length = a.TypeCount ∧ ∀ t ∈ a.Types, 0 ∈ t

instance (a : ResourceTypesArray) : Decidable a.WF := by
  unfold ResourceTypesArray.WF; infer_instance

/-- Scanning a C string buffer for its terminator: the index of the
first null byte, when the buffer contains one. -/
def cstrLen : List Nat → Option Nat
  | [] => none
  | b :: bs => if b = 0 then some 0 else (cstrLen bs).map (· + 1)

theorem cstrLen_of_mem_zero {t : List Nat} (h : 0 ∈ t) :
    ∃ k, cstrLen t = some k ∧ k < t.length ∧ t.get? k = some 0 := by
  induction t with
  | nil => cases h
  | cons b bs ih =>
    by_cases hb : b = 0
    · exact ⟨0, by simp [cstrLen, hb], by simp, by simp [hb]⟩
    · have hmem : 0 ∈ bs := by
        cases List.mem_cons.mp h with
        | inl h0 => exact absurd h0.symm hb
        | inr h0 => exact h0
      obtain ⟨k, hk, hkl, hkg⟩ := ih hmem
      exact ⟨k + 1, by simp [cstrLen, hb, hk], by simpa using Nat.succ_lt_succ hkl,
        by simpa using hkg⟩

/-! ## ABI byte encoding

On linux-x64 every field of the four structs (a pointer or a `size_t`)
occupies 8 bytes, stored little endian.  An ABI-level instance of a
struct is the list of its field values, one machine word per field, in
declaration order. -/

/-- Little-endian byte encoding of a machine word into `w` bytes. -/
def bytesLE : Nat → Nat → List Nat
  | 0, _ => []
  | w + 1, n => n % 256 :: bytesLE w (n / 256)

/-- Value read back from a little-endian byte sequence. -/
def valLE : List Nat → Nat
  | [] => 0
  | b :: bs => b + 256 * valLE bs

/-- Writing a struct instance across the boundary: each field value is
stored as 8 little-endian bytes, fields in declaration order. -/
def encodeFields : List Nat → List Nat
  | [] => []
  | v :: vs => bytesLE 8 v ++ encodeFields vs

/-- Reading a struct instance of `k` fields back from its bytes. -/
def decodeFields : Nat → List Nat → List Nat
  | 0, _ => []
  | k + 1, bs => valLE (bs.take 8) :: decodeFields k (bs.drop 8)

theorem bytesLE_length (w n : Nat) : (bytesLE w n).length = w := by
  induction w generalizing n with
  | zero => rfl
  | succ w ih => simp [bytesLE, ih]

theorem valLE_bytesLE (w n : Nat) : valLE (bytesLE w n) = n % 256 ^ w := by
  induction w generalizing n with
  | zero => simp [bytesLE, valLE, Nat.mod_one]
  | succ w ih =>
    have hpow : (256 : Nat) ^ (w + 1) = 256 * 256 ^ w := by ring
    calc valLE (bytesLE (w + 1) n)
        = n % 256 + 256 * (n / 256 % 256 ^ w) := by simp [bytesLE, valLE, ih]
      _ = n % 256 ^ (w + 1) := by rw [hpow, Nat.mod_mul]

/-! ## Operational model of the consuming side

Modelled from the spec: the header ships no behavioural code, so the
operations the consuming side may perform on the four views are taken
from the specification's contract — the consumer may read the fields of
a view and may read the viewed bytes, and nothing else; allocation and
deallocation of the viewed buffers belong to the producing library.  A
world holds the producer's live allocations (each tagged with its
owner) and one instance of each of the four views. -/

/-- Who owns an allocation. -/
inductive Owner where
  | producer : Owner
  | consumer : Owner
deriving DecidableEq

/-- One live allocation: its address and its owner. -/
structure Alloc where
  addr : Nat
  owner : Owner
deriving DecidableEq

/-- The world the consumer operates in: the live allocations and the
four views handed to it. -/
structure World where
  heap : List Alloc
  js : JsonString
  rm : ResourceMem
  rta : ResourceTypesArray
  sv : StringView

/-- Modelled from the spec: the operations available to the consuming
side — field reads of the four views and byte reads through them.
Deallocation is absent: the contract reserves it to the producer. -/
inductive ConsumerOp where
  | readJsonData : ConsumerOp
  | readStrSize : ConsumerOp
  | readResourceData : ConsumerOp
  | readDataSize : ConsumerOp
  | readTypes : ConsumerOp
  | readTypeCount : ConsumerOp
  | readData : ConsumerOp
  | readSize : ConsumerOp
  | readMemByte : Nat → ConsumerOp
  | readViewByte : Nat → ConsumerOp

/-- What a consumer operation observes. -/
inductive ReadOut where
  | bytes : List Nat → ReadOut
  | num : Nat → ReadOut
  | strs : List (List Nat) → ReadOut
  | byte : Option Nat → ReadOut
deriving DecidableEq

/-- The observation a consumer operation makes of a world. -/
def observeOp (w : World) : ConsumerOp → ReadOut
  | .readJsonData => .bytes w.js.JsonData
  | .readStrSize => .num w.js.StrSize
  | .readResourceData => .bytes w.rm.ResourceData
  | .readDataSize => .num w.rm.DataSize
  | .readTypes => .strs w.rta.Types
  | .readTypeCount => .num w.rta.TypeCount
  | .readData => .bytes w.sv.Data
  | .readSize => .num w.sv.Size
  | .readMemByte i => .byte (w.rm.readByte i)
  | .readViewByte i => .byte (w.sv.readByte i)

/-- Executing a consumer operation: it observes the world; being a
read, it does not produce a new heap or new views. -/
def stepOp (w : World) (op : ConsumerOp) : World × ReadOut :=
  (w, observeOp w op)

/-- Executing a sequence of consumer operations. -/
def runConsumer (w : World) : List ConsumerOp → World
  | [] => w
  | op :: ops => runConsumer (stepOp w op).1 ops

theorem runConsumer_eq (w : World) (ops : List ConsumerOp) :
    runConsumer w ops = w := by
  induction ops with
  | nil => rfl
  | cons op ops ih => simpa [runConsumer, stepOp] using ih

/-- A field's pointee type, when the field is a pointer. -/
def CType.pointee? : CType → Option CType
  | .ptrT t => some t
  | _ => none

/-- Look up the type of a struct field by name. -/
def CStruct.fieldTypeOf (s : CStruct) (n : String) : Option CType :=
  (s.fields.find? fun f => f.fieldName = n).map CField.fieldType

/-- Round-trip of a field-value list through the byte boundary: with
every value inside the 64-bit machine word, decoding recovers the
values exactly. -/
theorem decodeFields_encodeFields (vals : List Nat)
    (hv : ∀ v ∈ vals, v < 2 ^ 64) :
    decodeFields vals.length (encodeFields vals) = vals := by
  induction vals with
  | nil => rfl
  | cons v vs ih =>
    have hv0 : v < 2 ^ 64 := hv v (by simp)
    have hvs : ∀ x ∈ vs, x < 2 ^ 64 := fun x hx => hv x (by simp [hx])
    have hlen : (bytesLE 8 v).length = 8 := bytesLE_length 8 v
    have step : decodeFields (v :: vs).length (encodeFields (v :: vs))
        = valLE ((bytesLE 8 v ++ encodeFields vs).take 8)
          :: decodeFields vs.length ((bytesLE 8 v ++ encodeFields vs).drop 8) := rfl
    have htake : (bytesLE 8 v ++ encodeFields vs).take 8 = bytesLE 8 v := by
      calc (bytesLE 8 v ++ encodeFields vs).take 8
          = (bytesLE 8 v ++ encodeFields vs).take (bytesLE 8 v).length := by rw [hlen]
        _ = bytesLE 8 v := List.take_left ..
    have hdrop : (bytesLE 8 v ++ encodeFields vs).drop 8 = encodeFields vs := by
      calc (bytesLE 8 v ++ encodeFields vs).drop 8
          = (bytesLE 8 v ++ encodeFields vs).drop (bytesLE 8 v).length := by rw [hlen]
        _ = encodeFields vs := List.drop_left ..
    rw [step, htake, hdrop, valLE_bytesLE, ih hvs]
    have h2 : (256 : Nat) ^ 8 = 2 ^ 64 := by norm_num
    rw [h2, Nat.mod_eq_of_lt hv0]

/-- C1: a conforming producer's `JsonString` has the null byte at
offset `StrSize` (reading `StrSize` bytes and then one more yields
zero), preserves the payload byte-for-byte over the first `StrSize`
bytes — so a null occurs there only when the payload itself contained
an embedded null — and `StrSize` does not count the terminator. -/
theorem jsonString_terminator_invariant (payload : List Nat) :
    (mkJsonString payload).JsonData.get? (mkJsonString payload).StrSize = some 0 ∧
    (∀ i, i < (mkJsonString payload).StrSize →
      (mkJsonString payload).JsonData.get? i = payload.get? i) ∧
    (∀ i, i < (mkJsonString payload).StrSize →
      (mkJsonString payload).JsonData.get? i = some 0 → payload.get? i = some 0) ∧
    (mkJsonString payload).StrSize + 1 = (mkJsonString payload).JsonData.length := by
  refine ⟨?_, ?_, ?_, ?_⟩
  · show (payload ++ [0]).get? payload.length = some 0
    exact List.get?_concat_length payload 0
  · intro i hi
    simp only [mkJsonString] at hi ⊢
    exact List.get?_append hi
  · intro i hi h0
    have : (mkJsonString payload).JsonData.get? i = payload.get? i := by
      simp only [mkJsonString] at hi ⊢
      exact List.get?_append hi
    rw [← this]; exact h0
  · simp [mkJsonString]

theorem jsonString_terminator_invariant_witness :
    (mkJsonString [104, 105]).JsonData.get? (mkJsonString [104, 105]).StrSize
      = some 0 ∧
    (mkJsonString [104, 105]).JsonData.get? 0 = ([104, 105] : List Nat).get? 0 ∧
    (mkJsonString [104, 105]).StrSize + 1 = (mkJsonString [104, 105]).JsonData.length := by
  obtain ⟨h1, h2, h3, h4⟩ := jsonString_terminator_invariant [104, 105]
  exact ⟨h1, h2 0 (by decide), h4⟩

/-- C2: for a well-formed `ResourceMem` and `StringView`, exactly
`DataSize` (respectively `Size`) bytes are readable — indexing any
offset below the length succeeds and any read at or beyond the length
(in particular a read of a presumed trailing terminator) fails. -/
theorem mem_view_reads_exact (m : ResourceMem) (s : StringView)
    (hm : m.WF) (hs : s.WF) :
    (∀ i, i < m.DataSize → (m.readByte i).isSome = true) ∧
    (∀ i, m.DataSize ≤ i → m.readByte i = none) ∧
    (∀ i, i < s.Size → (s.readByte i).isSome = true) ∧
    (∀ i, s.Size ≤ i → s.readByte i = none) := by
  refine ⟨?_, ?_, ?_, ?_⟩
  · intro i hi
    have hlt : i < m.ResourceData.length := by rw [hm]; exact hi
    rw [ResourceMem.readByte, List.get?_eq_get hlt]; rfl
  · intro i hi
    exact List.get?_eq_none.mpr (by rw [hm]; exact hi)
  · intro i hi
    have hlt : i < s.Data.length := by rw [hs]; exact hi
    rw [StringView.readByte, List.get?_eq_get hlt]; rfl
  · intro i hi
    exact List.get?_eq_none.mpr (by rw [hs]; exact hi)

theorem mem_view_reads_exact_witness :
    ((⟨[1, 2], 2⟩ : ResourceMem).readByte 0).isSome = true ∧
    (⟨[1, 2], 2⟩ : ResourceMem).readByte 5 = none ∧
    ((⟨[7], 1⟩ : StringView).readByte 0).isSome = true ∧
    (⟨[7], 1⟩ : StringView).readByte 1 = none := by
  obtain ⟨h1, h2, h3, h4⟩ := mem_view_reads_exact ⟨[1, 2], 2⟩ ⟨[7], 1⟩ rfl rfl
  exact ⟨h1 0 (by decide), h2 5 (by decide), h3 0 (by decide), h4 1 (by decide)⟩

/-- C3: in a well-formed `ResourceTypesArray`, every one of the
`TypeCount` slots exists, and scanning the string it holds finds a
terminator inside the buffer, so reading up to and including the
terminator reads at most the buffer's length and never past it. -/
theorem typesArray_iteration_safe (a : ResourceTypesArray) (h : a.WF) :
    ∀ i, i < a.TypeCount →
      (a.Types.get? i).isSome = true ∧
      ∀ t, a.Types.get? i = some t →
        (cstrLen t).isSome = true ∧
        (cstrLen t).getD 0 + 1 ≤ t.length ∧
        t.get? ((cstrLen t).getD 0) = some 0 := by
  intro i hi
  have hlt : i < a.Types.length := by rw [h.1]; exact hi
  constructor
  · rw [List.get?_eq_get hlt]; rfl
  · intro t ht
    have hmem : t ∈ a.Types := List.get?_mem ht
    obtain ⟨k, hk, hkl, hkg⟩ := cstrLen_of_mem_zero (h.2 t hmem)
    rw [hk]
    exact ⟨rfl, Nat.succ_le_of_lt hkl, hkg⟩

theorem typesArray_iteration_safe_witness :
    ((⟨[[65, 0]], 1⟩ : ResourceTypesArray).Types.get? 0).isSome = true ∧
    (cstrLen [65, 0]).isSome = true ∧
    (cstrLen [65, 0]).getD 0 + 1 ≤ ([65, 0] : List Nat).length ∧
    ([65, 0] : List Nat).get? ((cstrLen [65, 0]).getD 0) = some 0 := by
  obtain ⟨h1, h2⟩ := typesArray_iteration_safe ⟨[[65, 0]], 1⟩ ⟨rfl, by decide⟩ 0 (by decide)
  obtain ⟨h3, h4, h5⟩ := h2 [65, 0] rfl
  exact ⟨h1, h3, h4, h5⟩

/-- C4: each of the four declared structs has exactly two fields, a
raw pointer first and a `size_t` length second, in that order. -/
theorem header_structs_ptr_then_len :
    jsonStringDecl.ptrThenLen = true ∧ resourceMemDecl.ptrThenLen = true ∧
    resourceTypesArrayDecl.ptrThenLen = true ∧ stringViewDecl.ptrThenLen = true :=
  ⟨rfl, rfl, rfl, rfl⟩

/-- C5: writing any instance of one of the four declared structs across
the boundary as little-endian field bytes and reading it back is the
identity on the field values, bit-exactly. -/
theorem abi_round_trip (s : CStruct) (_hs : s ∈ headerStructs)
    (vals : List Nat) (hlen : vals.length = s.fields.length)
    (hv : ∀ v ∈ vals, v < 2 ^ 64) :
    decodeFields s.fields.length (encodeFields vals) = vals := by
  rw [← hlen]
  exact decodeFields_encodeFields vals hv

theorem abi_round_trip_witness :
    decodeFields jsonStringDecl.fields.length (encodeFields [4096, 10])
      = [4096, 10] :=
  abi_round_trip jsonStringDecl (List.mem_cons_self _ _) [4096, 10] rfl (by decide)

/-- C6: every length field of the four structs (`StrSize`, `DataSize`,
`TypeCount`, `Size`) has type `size_t`, the platform's unsigned size
type, whose maximum value covers the maximum addressable byte count;
and every first (pointer) field is a raw, non-owning pointer. -/
theorem size_fields_wide_enough :
    jsonStringDecl.fieldTypeOf "StrSize" = some .sizeT ∧
    resourceMemDecl.fieldTypeOf "DataSize" = some .sizeT ∧
    resourceTypesArrayDecl.fieldTypeOf "TypeCount" = some .sizeT ∧
    stringViewDecl.fieldTypeOf "Size" = some .sizeT ∧
    maxAddressableByteCount ≤ sizeTMax ∧
    (headerStructs.all fun s =>
      ((s.fields.head?.map fun f => f.fieldType.isRawPointer).getD false)) = true :=
  ⟨rfl, rfl, rfl, rfl, by decide, rfl⟩

/-- C7: no consumer operation writes a view: after any sequence of
operations by other readers, every field of every one of the four views
is unchanged, and any read observes exactly the value it would have
observed at construction — concurrent readers of the same view see the
same field values. -/
theorem views_immutable_concurrent_reads (w : World) (ops : List ConsumerOp)
    (op : ConsumerOp) :
    (runConsumer w ops).js = w.js ∧ (runConsumer w ops).rm = w.rm ∧
    (runConsumer w ops).rta = w.rta ∧ (runConsumer w ops).sv = w.sv ∧
    (stepOp (runConsumer w ops) op).2 = (stepOp w op).2 := by
  rw [runConsumer_eq]
  exact ⟨rfl, rfl, rfl, rfl, rfl⟩

/-- C8: no sequence of consumer operations deallocates anything — the
heap of live allocations, each tagged with its owner, is exactly the
same afterwards, so every producer-owned pointee stays live and
producer-owned. -/
theorem consumer_never_deallocates (w : World) (ops : List ConsumerOp) :
    (runConsumer w ops).heap = w.heap ∧
    ∀ a, a ∈ w.heap → a ∈ (runConsumer w ops).heap := by
  rw [runConsumer_eq]
  exact ⟨rfl, fun a ha => ha⟩

theorem consumer_never_deallocates_witness :
    (runConsumer
      ⟨[⟨4096, .producer⟩], ⟨[0], 0⟩, ⟨[], 0⟩, ⟨[], 0⟩, ⟨[], 0⟩⟩
      [.readStrSize, .readMemByte 0]).heap = [⟨4096, .producer⟩] ∧
    (⟨4096, .producer⟩ : Alloc) ∈ (runConsumer
      ⟨[⟨4096, .producer⟩], ⟨[0], 0⟩, ⟨[], 0⟩, ⟨[], 0⟩, ⟨[], 0⟩⟩
      [.readStrSize, .readMemByte 0]).heap := by
  obtain ⟨h1, h2⟩ := consumer_never_deallocates
    ⟨[⟨4096, .producer⟩], ⟨[0], 0⟩, ⟨[], 0⟩, ⟨[], 0⟩, ⟨[], 0⟩⟩
    [.readStrSize, .readMemByte 0]
  exact ⟨h1, h2 _ (List.mem_cons_self _ _)⟩

/-- C9: behind every pointer field of the four structs the ultimately
viewed data is `const`-qualified, and a write through `JsonData`,
`ResourceData` or `Data` is rejected by the type system; in
`ResourceTypesArray` the outer array's slots are not `const`, so
assigning a slot through `Types` is permitted while writing the
characters a slot points to is rejected. -/
theorem viewed_data_const_slots_assignable :
    (headerStructs.all fun s => s.fields.all fun f =>
      !f.fieldType.isRawPointer || f.fieldType.viewedDataConst) = true ∧
    (jsonStringDecl.fieldTypeOf "JsonData").map CType.writeThroughAllowed
      = some false ∧
    (resourceMemDecl.fieldTypeOf "ResourceData").map CType.writeThroughAllowed
      = some false ∧
    (stringViewDecl.fieldTypeOf "Data").map CType.writeThroughAllowed
      = some false ∧
    (resourceTypesArrayDecl.fieldTypeOf "Types").map CType.writeThroughAllowed
      = some true ∧
    ((resourceTypesArrayDecl.fieldTypeOf "Types").bind CType.pointee?).map
      CType.writeThroughAllowed = some false :=
  ⟨rfl, rfl, rfl, rfl, rfl, rfl⟩

/-- C10: zero-length views are representable and well formed: a
`JsonString` of `StrSize` 0 over a lone null byte, a `ResourceMem` of
`DataSize` 0, a `StringView` of `Size` 0 and a `ResourceTypesArray` of
`TypeCount` 0 all satisfy their invariants. -/
theorem zero_length_views_well_formed :
    JsonString.WF ⟨[0], 0⟩ ∧ (⟨[0], 0⟩ : JsonString).StrSize = 0 ∧
    ResourceMem.WF ⟨[], 0⟩ ∧ StringView.WF ⟨[], 0⟩ ∧
    ResourceTypesArray.WF ⟨[], 0⟩ :=
  ⟨rfl, rfl, rfl, rfl, rfl, by simp⟩
